import Mathlib

/-!
Shallow embedding of the batching and result-reconciliation core of the
bulk write path (src/src/mongoc/mongoc-write-command.c), together with
theorems settling the frozen claims about it.

Modelling conventions:
* C machine integers are modelled as `Nat` (unsigned) or `Int` (signed).
  The claims never exercise integer wraparound; theorems about universally
  quantified inputs carry explicit range hypotheses keeping every sum far
  below 2^32, and the 4-byte little-endian length prefix is reinterpreted
  as a signed int32 (`toInt32`) exactly where the C code stores it in an
  `int32_t`.
* A `bson_t` document is an ordered field list; a BSON array is the list of
  its values (its keys are the stringified positions in both the C code and
  the model).  `bson_iter_init_find` is `findField` (first field wins).
* The transport (`mongoc_cluster_run_command_monitored`) and the command
  assembly live outside src; per the external-interface section of the spec
  they deliver, per send, a success flag plus a (possibly partial) reply
  document.  They are modelled as oracles indexed by the send number.
-/

/-- A BSON value, restricted to the shapes the write-command code inspects:
int32, utf8 string, document (ordered field list), array, and an opaque
payload for any other type tag (for example an ObjectId). -/
inductive BVal where
  | i32 : Int → BVal
  | str : String → BVal
  | doc : List (String × BVal) → BVal
  | arr : List BVal → BVal
  | other : Nat → BVal
deriving Repr

/-- A BSON document: its ordered list of fields. -/
abbrev BsonDoc := List (String × BVal)

/-- bson_iter_init_find: the value of the first field with the given key. -/
def findField (d : BsonDoc) (k : String) : Option BVal :=
  match d with
  | [] => none
  | (k', v) :: rest => if k' = k then some v else findField rest k

/-- bson_iter_int32 on a value already positioned by key: yields the int32
payload, 0 for any other type (the claims only read well-typed fields). -/
def asInt32 : BVal → Int
  | .i32 n => n
  | _ => 0

/-- bson_iter_utf8 analogue, empty string on a type mismatch. -/
def asUtf8 : BVal → String
  | .str s => s
  | _ => ""

/-- Reinterpret a uint32 bit pattern as a signed int32 value. -/
def toInt32 (u : Nat) : Int :=
  if u % 4294967296 < 2147483648 then ((u % 4294967296 : Nat) : Int)
  else ((u % 4294967296 : Nat) : Int) - 4294967296

/-- Truncate a signed value to its uint32 bit pattern, as the C cast
(uint32_t) does. -/
def toUInt32 (i : Int) : Nat := (i % 4294967296).toNat

/-- The payload buffer of a write command: random access bytes plus a total
length, exactly the two things the C code reads from mongoc_buffer_t. -/
structure Payload where
  data : Nat → Nat
  len : Nat

/-- The 4-byte little-endian length prefix read by
memcpy(&len, payload.data + off, 4) followed by BSON_UINT32_FROM_LE. -/
def readLE4 (dat : Nat → Nat) (off : Nat) : Nat :=
  dat off + 256 * dat (off + 1) + 65536 * dat (off + 2) + 16777216 * dat (off + 3)

/-- The write command type tag (MONGOC_WRITE_COMMAND_DELETE, INSERT, UPDATE,
numbered 0, 1, 2 in that order in the C enum). -/
inductive WriteCmdType where
  | delete
  | insert
  | update
deriving DecidableEq, Repr

/-- gCommandNames, indexed by the command type. -/
def gCommandNames : WriteCmdType → String
  | .delete => "delete"
  | .insert => "insert"
  | .update => "update"

/-- gCommandFields, indexed by the command type. -/
def gCommandFields : WriteCmdType → String
  | .delete => "deletes"
  | .insert => "documents"
  | .update => "updates"

/-- gCommandFieldLens, indexed by the command type. -/
def gCommandFieldLens : WriteCmdType → Nat
  | .delete => 7
  | .insert => 9
  | .update => 7

/-- Error domain constants from the public mongoc error enum (the header is
outside src); the claims rely only on these being fixed and non-zero. -/
def mongocErrorBson : Nat := 8

/-- MONGOC_ERROR_COMMAND domain constant. -/
def mongocErrorCommand : Nat := 11

/-- MONGOC_ERROR_COLLECTION domain constant. -/
def mongocErrorCollection : Nat := 12

/-- MONGOC_ERROR_WRITE_CONCERN domain constant. -/
def mongocErrorWriteConcern : Nat := 16

/-- MONGOC_ERROR_SERVER domain constant. -/
def mongocErrorServer : Nat := 17

/-- MONGOC_ERROR_COMMAND_INVALID_ARG code constant (non-zero; exact numeral
unused by any claim). -/
def mongocErrorCommandInvalidArg : Nat := 22

/-- MONGOC_ERROR_PROTOCOL_BAD_WIRE_VERSION code constant. -/
def mongocErrorProtocolBadWireVersion : Nat := 21

/-- MONGOC_ERROR_BSON_INVALID code constant. -/
def mongocErrorBsonInvalid : Nat := 35

/-- MONGOC_ERROR_COLLECTION_DELETE_FAILED code constant. -/
def mongocErrorCollectionDeleteFailed : Nat := 25

/-- MONGOC_ERROR_COLLECTION_INSERT_FAILED code constant. -/
def mongocErrorCollectionInsertFailed : Nat := 26

/-- MONGOC_ERROR_COLLECTION_UPDATE_FAILED code constant. -/
def mongocErrorCollectionUpdateFailed : Nat := 27

/-- WIRE_VERSION_COLLATION constant. -/
def wireVersionCollation : Nat := 5

/-- WIRE_VERSION_OP_MSG constant. -/
def wireVersionOpMsg : Nat := 6

/-- bson_error_t: a domain, a code (both uint32) and a message. -/
structure BsonError where
  domain : Nat
  code : Nat
  message : String
deriving DecidableEq, Repr

/-- The zeroed bson_error_t. -/
def zeroError : BsonError := ⟨0, 0, ""⟩

/-- _mongoc_write_command_too_large_error: fills the error with domain
MONGOC_ERROR_BSON, code MONGOC_ERROR_BSON_INVALID and the formatted
message (idx and len are printed with the unsigned conversion). -/
def tooLargeError (idx len maxBsonSize : Nat) : BsonError :=
  { domain := mongocErrorBson, code := mongocErrorBsonInvalid,
    message := "Document " ++ toString idx ++ " is too large for the cluster. Document is "
      ++ toString len ++ " bytes, max is " ++ toString maxBsonSize ++ "." }

/-- The per-type code table used by _empty_error (delete, insert, update
order, matching the enum). -/
def emptyErrorCode : WriteCmdType → Nat
  | .delete => mongocErrorCollectionDeleteFailed
  | .insert => mongocErrorCollectionInsertFailed
  | .update => mongocErrorCollectionUpdateFailed

/-- _empty_error: MONGOC_ERROR_COLLECTION domain with a per-type code. -/
def emptyError (ty : WriteCmdType) : BsonError :=
  { domain := mongocErrorCollection, code := emptyErrorCode ty,
    message := "Cannot do an empty " ++ gCommandNames ty }

/-- _mongoc_write_command_will_overflow: the legacy batcher overflow
predicate.  All arguments are in the ranges where the mixed C integer
conversions agree with Nat arithmetic. -/
def mongocWriteCommandWillOverflow
    (lenSoFar documentLen nDocumentsWritten maxBsonSize maxWriteBatchSize : Nat) : Bool :=
  let maxCmdSize := maxBsonSize + 16384
  if lenSoFar + documentLen > maxCmdSize then true
  else if maxWriteBatchSize > 0 ∧ nDocumentsWritten ≥ maxWriteBatchSize then true
  else false

/-- mongoc_write_result_t: counters and accumulated arrays.  The C counters
are uint32; they are modelled as Int because the merge adds the int32
affected count to them (no claim brings them near 2^32 or below 0 except
through the exact expressions of the source). -/
structure WriteResult where
  nInserted : Int
  nMatched : Int
  nModified : Int
  nRemoved : Int
  nUpserted : Int
  upsertAppendCount : Nat
  upserted : List (Int × BVal)
  nWriteConcernErrors : Nat
  writeConcernErrors : List BVal
  writeErrors : List BVal
  failed : Bool
  mustStop : Bool
  error : BsonError
deriving Repr

/-- _mongoc_write_result_init: everything zeroed, arrays empty. -/
def writeResultInit : WriteResult :=
  { nInserted := 0, nMatched := 0, nModified := 0, nRemoved := 0, nUpserted := 0,
    upsertAppendCount := 0, upserted := [], nWriteConcernErrors := 0,
    writeConcernErrors := [], writeErrors := [], failed := false,
    mustStop := false, error := zeroError }

/-- _mongoc_write_result_append_upsert: appends the {index, _id} record
under the stringified running count (the key is the position, kept
implicit in the list model). -/
def writeResultAppendUpsert (r : WriteResult) (idx : Int) (v : BVal) : WriteResult :=
  { r with upserted := r.upserted ++ [(idx, v)],
           upsertAppendCount := r.upsertAppendCount + 1 }

/-- The merge reads n only when the field holds an int32 (defaulting 0). -/
def replyAffected (reply : BsonDoc) : Int :=
  match findField reply "n" with
  | some (.i32 v) => v
  | _ => 0

/-- The merge marks the result failed when the reply carries a non-empty
writeErrors array (init_find, HOLDS_ARRAY, recurse, iter_next). -/
def replyHasWriteErrors (reply : BsonDoc) : Bool :=
  match findField reply "writeErrors" with
  | some (.arr (_ :: _)) => true
  | _ => false

/-- One entry of the upserted reply array, as the merge reads it:
a document whose first index field holds an int32 and which has an _id
field; anything else is skipped. -/
def upsertEntry (e : BVal) : Option (Int × BVal) :=
  match e with
  | .doc d =>
    match findField d "index" with
    | some (.i32 s) =>
      match findField d "_id" with
      | some v => some (s, v)
      | _ => none
    | _ => none
  | _ => none

/-- The type-specific accounting block of _mongoc_write_result_merge
(the switch on command->type). -/
def mergeCounters (r : WriteResult) (ty : WriteCmdType) (reply : BsonDoc) (offset : Nat) :
    WriteResult :=
  let affected := replyAffected reply
  match ty with
  | .insert => { r with nInserted := r.nInserted + affected }
  | .delete => { r with nRemoved := r.nRemoved + affected }
  | .update =>
    let r1 :=
      match findField reply "upserted" with
      | some u =>
        let entries := (match u with | .arr a => a | _ => []).filterMap upsertEntry
        let r' := entries.foldl
          (fun acc (sv : Int × BVal) =>
            writeResultAppendUpsert acc ((offset : Int) + sv.1) sv.2) r
        { r' with nUpserted := r'.nUpserted + entries.length,
                  nMatched := r'.nMatched + max 0 (affected - entries.length) }
      | none => { r with nMatched := r.nMatched + affected }
    match findField reply "nModified" with
    | some (.i32 m) => { r1 with nModified := r1.nModified + m }
    | _ => r1

/-- The per-field rewrite performed by _mongoc_write_result_merge_arrays:
an index field is re-based by the offset, every other field is appended
verbatim. -/
def rebaseField (offset : Nat) (kv : String × BVal) : String × BVal :=
  if kv.1 = "index" then ("index", .i32 (asInt32 kv.2 + (offset : Int))) else kv

/-- One entry of the reply writeErrors array, as merge_arrays appends it to
the destination (entries that are not documents are skipped). -/
def rebaseErrEntry (offset : Nat) (e : BVal) : Option BVal :=
  match e with
  | .doc d => some (.doc (d.map (rebaseField offset)))
  | _ => none

/-- The writeErrors block of _mongoc_write_result_merge, which calls
_mongoc_write_result_merge_arrays on result->writeErrors. -/
def mergeWriteErrors (r : WriteResult) (reply : BsonDoc) (offset : Nat) : WriteResult :=
  match findField reply "writeErrors" with
  | some (.arr a) =>
    { r with writeErrors := r.writeErrors ++ a.filterMap (rebaseErrEntry offset) }
  | _ => r

/-- The writeConcernError block of _mongoc_write_result_merge. -/
def mergeWriteConcernError (r : WriteResult) (reply : BsonDoc) : WriteResult :=
  match findField reply "writeConcernError" with
  | some (.doc d) =>
    { r with writeConcernErrors := r.writeConcernErrors ++ [.doc d],
             nWriteConcernErrors := r.nWriteConcernErrors + 1 }
  | _ => r

/-- _mongoc_write_result_merge: the failed flag, the type switch, the
writeErrors merge and the writeConcernError append, in source order. -/
def writeResultMerge (r : WriteResult) (ty : WriteCmdType) (reply : BsonDoc) (offset : Nat) :
    WriteResult :=
  let r0 := if replyHasWriteErrors reply then { r with failed := true } else r
  mergeWriteConcernError (mergeWriteErrors (mergeCounters r0 ty reply offset) reply offset) reply

/-- The quoted form used while composing a multi-error message. -/
def quoteStr (s : String) : String := "\"" ++ s ++ "\""

/-- The inner field walk of _set_error_from_response over one error
document: the first code field read while the running code is still 0 sets
the code; every errmsg field is appended to the compound message, quoted
and comma-separated when the array has more than one entry. -/
def errFoldDoc (nKeys i : Nat) (st : Int × String) (d : BsonDoc) : Int × String :=
  d.foldl
    (fun (cm : Int × String) kv =>
      if kv.1 = "code" ∧ cm.1 = 0 then (asInt32 kv.2, cm.2)
      else if kv.1 = "errmsg" then
        if nKeys > 1 then
          (cm.1, cm.2 ++ quoteStr (asUtf8 kv.2) ++ (if i < nKeys - 1 then ", " else ""))
        else (cm.1, cm.2 ++ asUtf8 kv.2)
      else cm)
    st

/-- The outer array walk of _set_error_from_response; the counter i is
advanced only for entries that are documents, as in the source. -/
def errFold (nKeys : Nat) (st : Int × String × Nat) (e : BVal) : Int × String × Nat :=
  match e with
  | .doc d =>
    let cm := errFoldDoc nKeys st.2.2 (st.1, st.2.1) d
    (cm.1, cm.2, st.2.2 + 1)
  | _ => st

/-- _set_error_from_response: reduce an error array to one bson_error_t.
The error is written only when a non-zero code was found and the composed
message is non-empty; otherwise the incoming error is left untouched. -/
def setErrorFromResponse (arr : List BVal) (domain : Nat) (errorType : String)
    (err : BsonError) : BsonError :=
  let nKeys := arr.length
  let head := if nKeys > 1 then "Multiple " ++ errorType ++ " errors: " else ""
  let st := arr.foldl (errFold nKeys) (0, head, 0)
  if st.1 ≠ 0 ∧ st.2.1.length ≠ 0 then
    { domain := domain, code := toUInt32 st.1, message := st.2.1 }
  else err

/-- The upserted accumulator rendered as the BSON array the completion
writes into the outcome document. -/
def upsertedListToBson (l : List (Int × BVal)) : BVal :=
  .arr (l.map (fun p => .doc [("index", .i32 p.1), ("_id", p.2)]))

/-- The full outcome of _mongoc_write_result_complete: the boolean return,
the updated result, the outcome document written into the caller bson (for
acknowledged writes) and the copied-out error. -/
structure CompleteOut where
  ok : Bool
  result : WriteResult
  reply : BsonDoc
  err : BsonError
deriving Repr

/-- _mongoc_write_result_complete: domain selection, outcome document,
error synthesis from writeErrors then (only if no code was set) from
writeConcernErrors, the error copy-out and the success predicate. -/
def writeResultComplete (r : WriteResult) (errorApiVersion : Int)
    (wcAcknowledged : Bool) (errDomainOverride : Nat) : CompleteOut :=
  let domain :=
    if errorApiVersion ≥ 2 then mongocErrorServer
    else if errDomainOverride ≠ 0 then errDomainOverride
    else if r.error.domain ≠ 0 then r.error.domain
    else mongocErrorCollection
  let reply :=
    if wcAcknowledged then
      [("nInserted", BVal.i32 r.nInserted), ("nMatched", BVal.i32 r.nMatched),
       ("nModified", BVal.i32 r.nModified), ("nRemoved", BVal.i32 r.nRemoved),
       ("nUpserted", BVal.i32 r.nUpserted)]
      ++ (if r.upserted.isEmpty then [] else [("upserted", upsertedListToBson r.upserted)])
      ++ [("writeErrors", BVal.arr r.writeErrors)]
      ++ (if r.nWriteConcernErrors ≠ 0 then
            [("writeConcernErrors", BVal.arr r.writeConcernErrors)] else [])
    else []
  let e1 := setErrorFromResponse r.writeErrors domain "write" r.error
  let e2 :=
    if e1.code = 0 then
      setErrorFromResponse r.writeConcernErrors mongocErrorWriteConcern "write concern" e1
    else e1
  { ok := (!r.failed) && decide (e2.code = 0),
    result := { r with error := e2 }, reply := reply, err := e2 }

/-- One shipped OP_MSG batch, as instrumentation of the send call: the
payload byte offset and size handed to the transport, the number of
documents counted into the batch, and whether must_stop was already set
when the send was issued. -/
structure SentBatch where
  offset : Nat
  size : Nat
  docs : Nat
  mustStopBefore : Bool
deriving DecidableEq, Repr

/-- The inputs of _mongoc_write_opmsg that are fixed across the loop:
payload, command type, the three negotiated server limits, the assembled
command document length (built outside src), and the transport oracle
giving, for the n-th send, the success flag and the reply document.  The
pre-loop mongoc_cmd_parts_assemble is assumed to succeed (its failure path
sends nothing and no claim touches it). -/
structure OpmsgCtx where
  payload : Payload
  cmdType : WriteCmdType
  maxBsonObjSize : Nat
  maxMsgSize : Nat
  maxDocumentCount : Nat
  assembledCmdLen : Nat
  transport : Nat → Bool × BsonDoc

/-- The fixed per-message overhead: 26 bytes of opcode framing plus the
assembled command document plus the payload field identifier and its NUL. -/
def opmsgHeader (ctx : OpmsgCtx) : Nat :=
  26 + ctx.assembledCmdLen + gCommandFieldLens ctx.cmdType + 1

/-- The mutable state of the _mongoc_write_opmsg loop, plus two ghost
traces: the batches shipped and the offsets passed to the result merge. -/
structure OpmsgSt where
  payloadTotalOffset : Nat
  payloadBatchSize : Nat
  documentCount : Nat
  indexOffset : Nat
  result : WriteResult
  sent : List SentBatch
  merges : List Nat
deriving Repr

/-- The ship_it block of _mongoc_write_opmsg: send the accumulated byte
range, advance the total offset, zero the batch size and the document
count, mark failed and must_stop on a transport failure, merge the reply
at index_offset and then add the (already zeroed) document count to
index_offset, exactly in source order. -/
def opmsgShip (ctx : OpmsgCtx) (s : OpmsgSt) : OpmsgSt :=
  let tr := ctx.transport s.sent.length
  let ret := tr.1
  let reply := tr.2
  let sent := s.sent ++ [⟨s.payloadTotalOffset, s.payloadBatchSize, s.documentCount, s.result.mustStop⟩]
  let payloadTotalOffset := s.payloadTotalOffset + s.payloadBatchSize
  -- document_count = 0; is executed before the merge and before
  -- index_offset += document_count; in the source.
  let documentCount := 0
  let r1 := if ret then s.result else { s.result with failed := true, mustStop := true }
  let r2 := writeResultMerge r1 ctx.cmdType reply s.indexOffset
  let indexOffset := s.indexOffset + documentCount
  { payloadTotalOffset := payloadTotalOffset, payloadBatchSize := 0,
    documentCount := documentCount, indexOffset := indexOffset,
    result := r2, sent := sent, merges := s.merges ++ [s.indexOffset] }

/-- One iteration of the _mongoc_write_opmsg do-while body: read the next
length prefix at payload_batch_size + payload_total_offset; skip the
record when it exceeds maxBsonObjSize plus the 16k allowance (zeroing the
pending batch and advancing only by the record length, as the source
does); otherwise accept it when it fits in maxMsgSize and ship when the
document count fills maxDocumentCount or the payload is exhausted; when
it does not fit, ship the pending batch without it. -/
def opmsgStep (ctx : OpmsgCtx) (s : OpmsgSt) : OpmsgSt :=
  let lenRaw := readLE4 ctx.payload.data (s.payloadBatchSize + s.payloadTotalOffset)
  let lenU := lenRaw % 4294967296
  if toInt32 lenRaw > (ctx.maxBsonObjSize : Int) + 16384 then
    { s with
      result := { s.result with
                  failed := true
                  error := tooLargeError s.indexOffset lenU ctx.maxBsonObjSize }
      payloadBatchSize := 0
      documentCount := 0
      payloadTotalOffset := s.payloadTotalOffset + lenU }
  else if s.payloadBatchSize + opmsgHeader ctx + lenU ≤ ctx.maxMsgSize then
    let s' := { s with payloadBatchSize := s.payloadBatchSize + lenU,
                       documentCount := s.documentCount + 1 }
    if s'.documentCount = ctx.maxDocumentCount ∨
       s'.payloadBatchSize + s'.payloadTotalOffset = ctx.payload.len then
      opmsgShip ctx s'
    else s'
  else opmsgShip ctx s

/-- The do-while loop of _mongoc_write_opmsg, fuelled (the C loop does not
terminate on some malformed inputs; none is fuelled away in any claim). -/
def opmsgLoop (ctx : OpmsgCtx) : Nat → OpmsgSt → Option OpmsgSt
  | 0, _ => none
  | fuel + 1, s =>
    let s' := opmsgStep ctx s
    if s'.payloadTotalOffset < ctx.payload.len then opmsgLoop ctx fuel s'
    else some s'

/-- _mongoc_write_opmsg from the top of its loop: zeroed offsets and batch,
the caller supplied index_offset and result. -/
def opmsgRun (ctx : OpmsgCtx) (indexOffset : Nat) (r : WriteResult) (fuel : Nat) :
    Option OpmsgSt :=
  opmsgLoop ctx fuel ⟨0, 0, 0, indexOffset, r, [], []⟩

/-- Per-round oracle for _mongoc_write_opquery: whether
mongoc_cmd_parts_assemble succeeds, whether the monitored command run
succeeds, and the reply document (empty on a network failure). -/
structure RoundEnv where
  assembleOk : Bool
  runOk : Bool
  reply : BsonDoc

/-- The fixed inputs of _mongoc_write_opquery: payload, command type, the
two limits it uses, the base command document length (cmd.len right after
_mongoc_write_command_init), the ordered flag, and the round oracle
indexed by the number of rounds already sent. -/
structure OpqueryCtx where
  payload : Payload
  cmdType : WriteCmdType
  maxBsonObjSize : Nat
  maxWriteBatchSize : Nat
  cmdLen : Nat
  ordered : Bool
  env : Nat → RoundEnv

/-- overhead = cmd.len + 2 + gCommandFieldLens[command->type]. -/
def opqueryOverhead (ctx : OpqueryCtx) : Nat :=
  ctx.cmdLen + 2 + gCommandFieldLens ctx.cmdType

/-- Result of one scanning pass of the opquery round: documents accepted,
the advanced data offset, whether a record was left for a later round, the
last record length read, and whether the loop exited on a record (rather
than on end of payload). -/
structure ScanOut where
  nAccepted : Nat
  dataOffset : Nat
  hasMore : Bool
  lastLen : Nat
  sawRecord : Bool
deriving DecidableEq, Repr

/-- The while loop of one opquery round: walk records from the data offset,
predict overflow with _mongoc_write_command_will_overflow (per-record cost
is key length + record length + 2 type and NUL bytes plus the growing
array length, which starts at the 5 bytes of an empty document), stop on
the first record that would overflow. -/
def opqueryScan (ctx : OpqueryCtx) : Nat → Nat → Nat → Nat → Option ScanOut
  | 0, _, _, _ => none
  | fuel + 1, dataOffset, i, arLen =>
    if ctx.payload.len ≤ dataOffset then some ⟨i, dataOffset, false, 0, false⟩
    else
      let len := readLE4 ctx.payload.data dataOffset % 4294967296
      let keyLen := (toString i).length
      if mongocWriteCommandWillOverflow (opqueryOverhead ctx)
           (keyLen + len + 2 + arLen) i ctx.maxBsonObjSize ctx.maxWriteBatchSize then
        some ⟨i, dataOffset, true, len, true⟩
      else
        opqueryScan ctx fuel (dataOffset + len) (i + 1) (arLen + 1 + (keyLen + 1) + len)

/-- One executed legacy round, as instrumentation of the send: the offset
handed to the merge, the number of documents in the round, the ret flag of
the round, and whether must_stop was already set when the round began. -/
structure RoundRec where
  offset : Nat
  docs : Nat
  ret : Bool
  mustStopBefore : Bool
deriving DecidableEq, Repr

/-- The state threaded through the again-loop of _mongoc_write_opquery;
hasMore and lastRet hold the values of the C locals has_more and ret after
the most recent round, rounds is the ghost trace of sends. -/
structure OpquerySt where
  dataOffset : Nat
  offset : Nat
  result : WriteResult
  rounds : List RoundRec
  hasMore : Bool
  lastRet : Bool
deriving Repr

/-- One round of _mongoc_write_opquery: scan, then either the zero-accepted
DocumentTooLarge path (which for a loop exit on a record also skips that
record) or the send path (assemble, run, failure bookkeeping, merge at the
round offset, offset advance by the documents sent). -/
def opqueryRound (ctx : OpqueryCtx) (s : OpquerySt) : Option OpquerySt :=
  (opqueryScan ctx (ctx.payload.len + 1) s.dataOffset 0 5).map fun sc =>
    if sc.nAccepted = 0 then
      { s with
        result := { s.result with
                    failed := true
                    error := tooLargeError 0 sc.lastLen ctx.maxBsonObjSize }
        dataOffset := if sc.sawRecord then s.dataOffset + sc.lastLen else s.dataOffset
        hasMore := sc.hasMore
        lastRet := false }
    else
      let e := ctx.env s.rounds.length
      let ret0 := e.assembleOk && e.runOk
      let reply := if e.assembleOk then e.reply else []
      let r0 := if e.assembleOk then s.result else { s.result with mustStop := true }
      let r1 :=
        if ret0 then r0
        else { r0 with failed := true,
                       mustStop := if reply.isEmpty then true else r0.mustStop }
      let r2 := writeResultMerge r1 ctx.cmdType reply s.offset
      { dataOffset := sc.dataOffset, offset := s.offset + sc.nAccepted,
        result := r2,
        rounds := s.rounds ++ [⟨s.offset, sc.nAccepted, ret0, s.result.mustStop⟩],
        hasMore := sc.hasMore, lastRet := ret0 }

/-- The again-loop: repeat while records remain and (the round succeeded or
the command is unordered) and must_stop is not set. -/
def opqueryLoop (ctx : OpqueryCtx) : Nat → OpquerySt → Option OpquerySt
  | 0, _ => none
  | fuel + 1, s =>
    match opqueryRound ctx s with
    | none => none
    | some s' =>
      if s'.hasMore = true ∧ (s'.lastRet = true ∨ ctx.ordered = false) ∧
         s'.result.mustStop = false then
        opqueryLoop ctx fuel s'
      else some s'

/-- _mongoc_write_opquery from its entry: data offset 0, the caller
supplied global offset and result. -/
def opqueryRun (ctx : OpqueryCtx) (offset : Nat) (r : WriteResult) (fuel : Nat) :
    Option OpquerySt :=
  opqueryLoop ctx fuel ⟨0, offset, r, [], false, false⟩

/-- The bypass_document_validation tri-state
(mongoc_write_bypass_document_validation_t). -/
inductive BypassDocumentValidation where
  | vfalse
  | vtrue
  | vdefault
deriving DecidableEq, Repr

/-- mongoc_bulk_write_flags_t, the fields the dispatcher reads. -/
structure BulkWriteFlags where
  ordered : Bool
  bypassDocumentValidation : BypassDocumentValidation
  hasCollation : Bool
deriving Repr

/-- mongoc_write_command_t, the fields the dispatcher and batchers read. -/
structure WriteCommandModel where
  cmdType : WriteCmdType
  flags : BulkWriteFlags
  payload : Payload

/-- External collaborators of _mongoc_write_command_execute: the write
concern policy (validity and acknowledgement), the negotiated wire
version, the server limits, the assembled and base command lengths, and
the two transport oracles. -/
structure ExecCtx where
  wcValid : Bool
  wcAcknowledged : Bool
  maxWireVersion : Nat
  maxBsonObjSize : Nat
  maxMsgSize : Nat
  maxDocumentCount : Nat
  assembledCmdLen : Nat
  cmdLen : Nat
  transport : Nat → Bool × BsonDoc
  env : Nat → RoundEnv

/-- The observable outcome of one execution: the result object, the ghost
traces of both batchers, and whether the opaque legacy unacknowledged
executor was dispatched. -/
structure ExecOut where
  result : WriteResult
  sent : List SentBatch
  merges : List Nat
  rounds : List RoundRec
  usedLegacy : Bool

/-- _mongoc_write_command_execute: the preflight checks in source order
(write concern validity; collation on an unacknowledged write; collation
below the collation wire version; bypassDocumentValidation on an
unacknowledged write; empty payload), then dispatch to the OP_MSG batcher,
the legacy array batcher, or the legacy unacknowledged executor.  The
legacy unacknowledged executor is modelled from the spec: it is an opaque
external collaborator, out of scope, recorded only by the usedLegacy flag. -/
def writeCommandExecute (cmd : WriteCommandModel) (ec : ExecCtx) (offset : Nat)
    (r : WriteResult) (fuel : Nat) : Option ExecOut :=
  if ec.wcValid = false then
    some ⟨{ r with failed := true, error := ⟨mongocErrorCommand,
            mongocErrorCommandInvalidArg, "The write concern is invalid."⟩ },
          [], [], [], false⟩
  else if cmd.flags.hasCollation = true ∧ ec.wcAcknowledged = false then
    some ⟨{ r with failed := true, error := ⟨mongocErrorCommand,
            mongocErrorCommandInvalidArg, "Cannot set collation for unacknowledged writes"⟩ },
          [], [], [], false⟩
  else if cmd.flags.hasCollation = true ∧ ec.maxWireVersion < wireVersionCollation then
    some ⟨{ r with failed := true, error := ⟨mongocErrorCommand,
            mongocErrorProtocolBadWireVersion,
            "Collation is not supported by the selected server"⟩ },
          [], [], [], false⟩
  else if cmd.flags.bypassDocumentValidation ≠ BypassDocumentValidation.vdefault ∧
          ec.wcAcknowledged = false then
    some ⟨{ r with failed := true, error := ⟨mongocErrorCommand,
            mongocErrorCommandInvalidArg,
            "Cannot set bypassDocumentValidation for unacknowledged writes"⟩ },
          [], [], [], false⟩
  else if cmd.payload.len = 0 then
    some ⟨{ r with error := emptyError cmd.cmdType }, [], [], [], false⟩
  else if wireVersionOpMsg ≤ ec.maxWireVersion then
    (opmsgRun ⟨cmd.payload, cmd.cmdType, ec.maxBsonObjSize, ec.maxMsgSize,
               ec.maxDocumentCount, ec.assembledCmdLen, ec.transport⟩ offset r fuel).map
      fun st => ⟨st.result, st.sent, st.merges, [], false⟩
  else if ec.wcAcknowledged = true then
    (opqueryRun ⟨cmd.payload, cmd.cmdType, ec.maxBsonObjSize, ec.maxDocumentCount,
                 ec.cmdLen, cmd.flags.ordered, ec.env⟩ offset r fuel).map
      fun st => ⟨st.result, [], [], st.rounds, false⟩
  else
    some ⟨r, [], [], [], true⟩

/-- A payload of n records, each d bytes long with its little-endian length
prefix (d < 256, so the prefix is the single byte d followed by zeros). -/
def uniformPayload (n d : Nat) : Payload :=
  ⟨fun i => if i % d = 0 then d else 0, n * d⟩

/-- Transport for the C1 scenario: first send succeeds cleanly, second send
returns a reply whose writeErrors names batch-relative index 0. -/
def c1Transport : Nat → Bool × BsonDoc
  | 0 => (true, [("n", .i32 1)])
  | _ => (true, [("n", .i32 0),
                 ("writeErrors", .arr [.doc [("index", .i32 0), ("code", .i32 11000),
                                             ("errmsg", .str "dup")]])])

/-- C1 scenario: two 8-byte documents, one document per batch
(maxDocumentCount 1), so the command needs two batches. -/
def c1Ctx : OpmsgCtx := ⟨uniformPayload 2 8, .insert, 1000, 10000, 1, 10, c1Transport⟩

/-- Transport for the C2 scenario: the first send fails at transport level,
any later send succeeds. -/
def c2Transport : Nat → Bool × BsonDoc
  | 0 => (false, [])
  | _ => (true, [("n", .i32 1)])

/-- C2 scenario: two 8-byte documents, one per batch, transport failing on
the first batch. -/
def c2Ctx : OpmsgCtx := ⟨uniformPayload 2 8, .insert, 1000, 10000, 1, 10, c2Transport⟩

/-- C3 payload: an 8-byte document, then a 20000-byte document (length
prefix 32 + 256 * 78), then another 8-byte document.  The byte at offset
20000 inside the second record reads as a 16-byte length prefix. -/
def c3Payload : Payload :=
  ⟨fun i =>
    if i = 0 then 8
    else if i = 8 then 32
    else if i = 9 then 78
    else if i = 20000 then 16
    else if i = 20008 then 8
    else 0, 20016⟩

/-- C3 scenario: maxBsonObjSize 3000, so the 20000-byte record exceeds
maxBsonObjSize + 16384 = 19384 and must be skipped. -/
def c3Ctx : OpmsgCtx := ⟨c3Payload, .insert, 3000, 100000, 100, 10, fun _ => (true, [])⟩

/-- A legacy round reply reporting clean success. -/
def c4ReplyOk : BsonDoc := [("n", .i32 1)]

/-- A legacy round reply that executed (ok) but reports one server write
error for its only document. -/
def c4ReplyWriteErr : BsonDoc :=
  [("n", .i32 0),
   ("writeErrors", .arr [.doc [("index", .i32 0), ("code", .i32 11000),
                               ("errmsg", .str "dup")]])]

/-- Round oracle: round 2 replies with a server write error (the command
run itself succeeds). -/
def c4EnvWriteErr : Nat → RoundEnv
  | 1 => ⟨true, true, c4ReplyWriteErr⟩
  | _ => ⟨true, true, c4ReplyOk⟩

/-- Round oracle: round 2 fails as a command run (ret false) with the
non-empty server error reply, e.g. an ok:0 response. -/
def c4EnvCmdFail : Nat → RoundEnv
  | 1 => ⟨true, false, [("ok", .i32 0)]⟩
  | _ => ⟨true, true, c4ReplyOk⟩

/-- C4 scenario: three 8-byte documents with maxWriteBatchSize 1, so the
command needs exactly three legacy rounds. -/
def c4Ctx (ordered : Bool) (env : Nat → RoundEnv) : OpqueryCtx :=
  ⟨uniformPayload 3 8, .insert, 1000, 1, 30, ordered, env⟩

/-- C6 witness scenario: five 8-byte documents, header 46 and
maxMsgSize 65, so exactly two documents fit per message. -/
def c6Ctx : OpmsgCtx := ⟨uniformPayload 5 8, .insert, 100, 65, 10, 10, fun _ => (true, [])⟩

/-- Spec-side expected value: the first non-zero code of an error list in
document order, computed the way the spec describes it (used to state the
error-synthesis claim against the source fold). -/
def firstNonzeroCode (l : List Int) : Int :=
  l.foldl (fun c x => if c = 0 then x else c) 0

/-- The same fold started from an arbitrary running code (proof helper). -/
def firstNonzeroFrom (c : Int) (l : List Int) : Int :=
  l.foldl (fun c' x => if c' = 0 then x else c') c

/-- Spec-side expected value: the quoted, comma-separated message join the
spec prescribes for multiple write errors. -/
def specQuotedJoin : List String → String
  | [] => ""
  | [m] => quoteStr m
  | m :: rest => quoteStr m ++ ", " ++ specQuotedJoin rest

/-- A write-error entry of the standard server shape
{index, code, errmsg}, used to state claims over entry lists. -/
def errEntryOf (p : Int × Int × String) : BVal :=
  .doc [("index", .i32 p.1), ("code", .i32 p.2.1), ("errmsg", .str p.2.2)]

/-- C1: the running offset never advances, because document_count is
zeroed before index_offset += document_count.  In the two-batch scenario
both merges receive offset 0, and the write error reported by the second
batch for its only document (global position 1) is recorded with global
index 0. -/
theorem c1_merge_offset_does_not_advance :
    (opmsgRun c1Ctx 0 writeResultInit 8).map
        (fun st => (st.merges, st.sent.map (fun b => b.docs))) = some ([0, 0], [1, 1]) ∧
    (opmsgRun c1Ctx 0 writeResultInit 8).map (fun st => st.result.writeErrors) =
      some [.doc [("index", .i32 0), ("code", .i32 11000), ("errmsg", .str "dup")]] :=
  ⟨rfl, rfl⟩

/-- C2: the OP_MSG do-while loop tests only payload consumption, so after
the transport failure of batch 1 sets must_stop, batch 2 is still sent
(its trace records must_stop already true at the send). -/
theorem c2_batch_sent_after_must_stop :
    (opmsgRun c2Ctx 0 writeResultInit 8).map (fun st => st.sent) =
      some [⟨0, 8, 1, false⟩, ⟨8, 8, 1, true⟩] :=
  rfl

/-- C3: skipping the oversized record zeroes the pending batch and
advances payload_total_offset by the record length only, so the 8-byte
document accumulated before it is never shipped and scanning resumes at
byte 20000, inside the oversized record; the single shipped batch is the
16-byte window [20000, 20016) instead of the two real documents. -/
theorem c3_oversized_skip_corrupts_batch :
    (opmsgRun c3Ctx 0 writeResultInit 10).map (fun st => st.sent) =
        some [⟨20000, 16, 1, false⟩] ∧
    (opmsgRun c3Ctx 0 writeResultInit 10).map (fun st => st.result.failed) = some true ∧
    (opmsgRun c3Ctx 0 writeResultInit 10).map (fun st => st.result.error) =
        some (tooLargeError 0 20000 3000) :=
  ⟨rfl, rfl, rfl⟩

/-- C4 counterexample: an ordered three-round command whose round 2 reply
reports a server write error (the command run itself succeeding) still
attempts round 3 — the continue test is ret || !ordered, and a reply
carrying only per-document writeErrors leaves ret true. -/
theorem c4_ordered_round3_after_write_error :
    (opqueryRun (c4Ctx true c4EnvWriteErr) 0 writeResultInit 5).map
        (fun st => (st.rounds.length, st.result.failed)) = some (3, true) :=
  rfl

/-- C4 amended: rounds stop early for an ordered command only when a round
fails as a command run (ret false); a round whose reply merely reports
per-document write errors does not stop either mode, and on a command-run
failure with a non-empty reply the unordered command still pushes on. -/
theorem c4_rounds_stop_only_on_command_failure :
    (opqueryRun (c4Ctx true c4EnvWriteErr) 0 writeResultInit 5).map
        (fun st => st.rounds.length) = some 3 ∧
    (opqueryRun (c4Ctx false c4EnvWriteErr) 0 writeResultInit 5).map
        (fun st => st.rounds.length) = some 3 ∧
    (opqueryRun (c4Ctx true c4EnvCmdFail) 0 writeResultInit 5).map
        (fun st => st.rounds.length) = some 2 ∧
    (opqueryRun (c4Ctx false c4EnvCmdFail) 0 writeResultInit 5).map
        (fun st => st.rounds.length) = some 3 :=
  ⟨rfl, rfl, rfl, rfl⟩

/-- The append-upsert fold only extends the upserted list (in order) and
its counter; every other field is untouched. -/
theorem foldlAppendUpsert_eq (entries : List (Int × BVal)) (offset : Nat) (r : WriteResult) :
    entries.foldl
        (fun acc (sv : Int × BVal) =>
          writeResultAppendUpsert acc ((offset : Int) + sv.1) sv.2) r
      = { r with
          upserted := r.upserted ++ entries.map (fun sv => ((offset : Int) + sv.1, sv.2))
          upsertAppendCount := r.upsertAppendCount + entries.length } := by
  induction entries generalizing r with
  | nil => simp
  | cons e t ih =>
    rw [List.foldl_cons, ih]
    simp only [writeResultAppendUpsert, WriteResult.mk.injEq, List.map_cons, List.length_cons,
      List.append_assoc, List.singleton_append, List.cons_append, List.nil_append,
      and_true, true_and]
    omega

/-- The writeErrors merge stage changes only the writeErrors field. -/
theorem mergeWriteErrors_only (r : WriteResult) (reply : BsonDoc) (offset : Nat) :
    mergeWriteErrors r reply offset
      = { r with writeErrors := (mergeWriteErrors r reply offset).writeErrors } := by
  unfold mergeWriteErrors
  split <;> rfl

/-- The writeConcernError merge stage changes only the writeConcernErrors
list and its counter. -/
theorem mergeWriteConcernError_only (r : WriteResult) (reply : BsonDoc) :
    mergeWriteConcernError r reply
      = { r with
          writeConcernErrors := (mergeWriteConcernError r reply).writeConcernErrors
          nWriteConcernErrors := (mergeWriteConcernError r reply).nWriteConcernErrors } := by
  unfold mergeWriteConcernError
  split <;> rfl

/-- The type-specific accounting stage never touches writeErrors. -/
theorem mergeCounters_writeErrors (r : WriteResult) (ty : WriteCmdType) (reply : BsonDoc)
    (offset : Nat) :
    (mergeCounters r ty reply offset).writeErrors = r.writeErrors := by
  unfold mergeCounters
  cases ty
  · rfl
  · rfl
  · dsimp only
    split <;> split <;> (try rw [foldlAppendUpsert_eq]) <;> (try rfl)

/-- The writeConcernError stage keeps writeErrors. -/
theorem mergeWCE_writeErrors (r : WriteResult) (reply : BsonDoc) :
    (mergeWriteConcernError r reply).writeErrors = r.writeErrors := by
  unfold mergeWriteConcernError
  split <;> rfl

/-- The writeConcernError stage keeps nUpserted. -/
theorem mergeWCE_nUpserted (r : WriteResult) (reply : BsonDoc) :
    (mergeWriteConcernError r reply).nUpserted = r.nUpserted := by
  unfold mergeWriteConcernError
  split <;> rfl

/-- The writeConcernError stage keeps nMatched. -/
theorem mergeWCE_nMatched (r : WriteResult) (reply : BsonDoc) :
    (mergeWriteConcernError r reply).nMatched = r.nMatched := by
  unfold mergeWriteConcernError
  split <;> rfl

/-- The writeConcernError stage keeps nModified. -/
theorem mergeWCE_nModified (r : WriteResult) (reply : BsonDoc) :
    (mergeWriteConcernError r reply).nModified = r.nModified := by
  unfold mergeWriteConcernError
  split <;> rfl

/-- The writeConcernError stage keeps the upserted list. -/
theorem mergeWCE_upserted (r : WriteResult) (reply : BsonDoc) :
    (mergeWriteConcernError r reply).upserted = r.upserted := by
  unfold mergeWriteConcernError
  split <;> rfl

/-- The writeErrors stage keeps nUpserted. -/
theorem mergeWE_nUpserted (r : WriteResult) (reply : BsonDoc) (offset : Nat) :
    (mergeWriteErrors r reply offset).nUpserted = r.nUpserted := by
  unfold mergeWriteErrors
  split <;> rfl

/-- The writeErrors stage keeps nMatched. -/
theorem mergeWE_nMatched (r : WriteResult) (reply : BsonDoc) (offset : Nat) :
    (mergeWriteErrors r reply offset).nMatched = r.nMatched := by
  unfold mergeWriteErrors
  split <;> rfl

/-- The writeErrors stage keeps nModified. -/
theorem mergeWE_nModified (r : WriteResult) (reply : BsonDoc) (offset : Nat) :
    (mergeWriteErrors r reply offset).nModified = r.nModified := by
  unfold mergeWriteErrors
  split <;> rfl

/-- The writeErrors stage keeps the upserted list. -/
theorem mergeWE_upserted (r : WriteResult) (reply : BsonDoc) (offset : Nat) :
    (mergeWriteErrors r reply offset).upserted = r.upserted := by
  unfold mergeWriteErrors
  split <;> rfl

/-- Unfolding of the writeErrors stage when the reply has the array. -/
theorem mergeWriteErrors_arr (r : WriteResult) (reply : BsonDoc) (offset : Nat)
    (a : List BVal) (h : findField reply "writeErrors" = some (.arr a)) :
    mergeWriteErrors r reply offset
      = { r with writeErrors := r.writeErrors ++ a.filterMap (rebaseErrEntry offset) } := by
  unfold mergeWriteErrors
  rw [h]

/-- A field whose key is not index is kept verbatim by the rebase. -/
theorem rebaseField_of_ne (offset : Nat) (kv : String × BVal) (h : kv.1 ≠ "index") :
    rebaseField offset kv = kv := by
  simp [rebaseField, h]

/-- Rebasing a field list without index fields is the identity. -/
theorem map_rebaseField_id (offset : Nat) (l : BsonDoc) (h : ∀ kv ∈ l, kv.1 ≠ "index") :
    l.map (rebaseField offset) = l := by
  induction l with
  | nil => rfl
  | cons kv t ih =>
    simp only [List.map_cons]
    rw [rebaseField_of_ne offset kv (h kv (by simp)),
        ih (fun kv' hkv' => h kv' (by simp [hkv']))]

/-- merge_arrays over entries of shape {index, rest}: the index is re-based
by the offset and every other field survives verbatim. -/
theorem filterMap_rebaseErrEntry (offset : Nat) (es : List (Int × BsonDoc))
    (hrest : ∀ p ∈ es, ∀ kv ∈ p.2, kv.1 ≠ "index") :
    (es.map (fun p => BVal.doc (("index", .i32 p.1) :: p.2))).filterMap (rebaseErrEntry offset)
      = es.map (fun p => BVal.doc (("index", .i32 (p.1 + (offset : Int))) :: p.2)) := by
  induction es with
  | nil => rfl
  | cons e t ih =>
    simp only [List.map_cons, List.filterMap_cons, rebaseErrEntry]
    rw [map_rebaseField_id offset e.2 (fun kv hkv => hrest e (by simp) kv hkv),
        ih (fun p hp => hrest p (by simp [hp]))]
    simp [rebaseField, asInt32]

/-- C5: for every reply merged at a given offset, each document entry of
the reply writeErrors array is appended to result.writeErrors with its
index field re-based by the offset and every other field kept verbatim. -/
theorem c5_write_errors_rebased_verbatim (r : WriteResult) (ty : WriteCmdType)
    (reply : BsonDoc) (offset : Nat) (es : List (Int × BsonDoc))
    (h : findField reply "writeErrors" =
      some (.arr (es.map (fun p => BVal.doc (("index", .i32 p.1) :: p.2)))))
    (hrest : ∀ p ∈ es, ∀ kv ∈ p.2, kv.1 ≠ "index") :
    (writeResultMerge r ty reply offset).writeErrors
      = r.writeErrors
        ++ es.map (fun p => BVal.doc (("index", .i32 (p.1 + (offset : Int))) :: p.2)) := by
  unfold writeResultMerge
  rw [mergeWCE_writeErrors, mergeWriteErrors_arr _ _ _ _ h,
      filterMap_rebaseErrEntry offset es hrest]
  show (mergeCounters _ ty reply offset).writeErrors ++ _ = _
  rw [mergeCounters_writeErrors]
  split <;> rfl

/-- C5 witness: merging replies at offsets 0 and 3, where the second
reports writeErrors [{index 1, code 11000, errmsg dup}], records the error
with global index 4 and the code and message verbatim. -/
theorem c5_witness :
    (writeResultMerge (writeResultMerge writeResultInit .insert [("n", BVal.i32 1)] 0)
        .insert
        [("n", BVal.i32 0),
         ("writeErrors", .arr [.doc [("index", .i32 1), ("code", .i32 11000),
                                     ("errmsg", .str "dup")]])]
        3).writeErrors
      = [.doc [("index", .i32 4), ("code", .i32 11000), ("errmsg", .str "dup")]] := by
  have h := c5_write_errors_rebased_verbatim
    (writeResultMerge writeResultInit .insert [("n", BVal.i32 1)] 0) .insert
    [("n", BVal.i32 0),
     ("writeErrors", .arr [.doc [("index", .i32 1), ("code", .i32 11000),
                                 ("errmsg", .str "dup")]])]
    3 [(1, [("code", BVal.i32 11000), ("errmsg", BVal.str "dup")])]
    (by rfl)
    (by
      intro p hp kv hkv
      simp only [List.mem_singleton] at hp
      subst hp
      simp only [List.mem_cons, List.mem_singleton, List.not_mem_nil] at hkv
      rcases hkv with h | h | h <;> first | (subst h; simp) | exact h.elim)
  simpa using h

/-- replyAffected reads the int32 n field. -/
theorem replyAffected_eq (reply : BsonDoc) (n : Int)
    (h : findField reply "n" = some (.i32 n)) : replyAffected reply = n := by
  unfold replyAffected
  rw [h]

/-- Well-shaped upserted entries {index, _id} all survive the filter. -/
theorem filterMap_upsertEntry_map (entries : List (Int × BVal)) :
    (entries.map (fun p => BVal.doc [("index", .i32 p.1), ("_id", p.2)])).filterMap
        upsertEntry
      = entries := by
  induction entries with
  | nil => rfl
  | cons e t ih =>
    simp only [List.map_cons, List.filterMap_cons]
    rw [ih]
    simp [upsertEntry, findField]

/-- The update accounting when the reply has a well-shaped upserted array
and an nModified field. -/
theorem mergeCounters_update_full (r : WriteResult) (reply : BsonDoc) (offset : Nat)
    (n m : Int) (entries : List (Int × BVal))
    (hn : findField reply "n" = some (.i32 n))
    (hup : findField reply "upserted" =
      some (.arr (entries.map (fun p => BVal.doc [("index", .i32 p.1), ("_id", p.2)]))))
    (hm : findField reply "nModified" = some (.i32 m)) :
    mergeCounters r .update reply offset =
      { r with
        upserted := r.upserted ++ entries.map (fun p => ((offset : Int) + p.1, p.2))
        upsertAppendCount := r.upsertAppendCount + entries.length
        nUpserted := r.nUpserted + entries.length
        nMatched := r.nMatched + max 0 (n - entries.length)
        nModified := r.nModified + m } := by
  unfold mergeCounters
  rw [replyAffected_eq reply n hn]
  dsimp only
  rw [hup, hm]
  dsimp only
  rw [filterMap_upsertEntry_map, foldlAppendUpsert_eq]

/-- The matched accounting when the reply has no upserted array,
independent of the nModified field. -/
theorem mergeCounters_update_noUpserted (r : WriteResult) (reply : BsonDoc)
    (offset : Nat) (n : Int)
    (hn : findField reply "n" = some (.i32 n))
    (hup : findField reply "upserted" = none) :
    (mergeCounters r .update reply offset).nMatched = r.nMatched + n := by
  unfold mergeCounters
  rw [replyAffected_eq reply n hn]
  dsimp only
  rw [hup]
  split <;> rfl

/-- The nModified field is untouched when the reply has no nModified,
independent of the upserted branch. -/
theorem mergeCounters_update_noModified (r : WriteResult) (reply : BsonDoc)
    (offset : Nat)
    (hm : findField reply "nModified" = none) :
    (mergeCounters r .update reply offset).nModified = r.nModified := by
  unfold mergeCounters
  dsimp only
  rw [hm]
  show (match findField reply "upserted" with
        | some u =>
          let entries := (match u with | .arr a => a | _ => []).filterMap upsertEntry
          let r' := entries.foldl
            (fun acc (sv : Int × BVal) =>
              writeResultAppendUpsert acc ((offset : Int) + sv.1) sv.2) r
          { r' with nUpserted := r'.nUpserted + entries.length,
                    nMatched := r'.nMatched + max 0 (replyAffected reply - entries.length) }
        | none => { r with nMatched := r.nMatched + replyAffected reply } : WriteResult).nModified
          = r.nModified
  split
  · dsimp only
    rw [foldlAppendUpsert_eq]
  · rfl

/-- The update accounting with a well-shaped upserted array, independent
of the nModified field. -/
theorem mergeCounters_update_upserted_proj (r : WriteResult) (reply : BsonDoc)
    (offset : Nat) (n : Int) (entries : List (Int × BVal))
    (hn : findField reply "n" = some (.i32 n))
    (hup : findField reply "upserted" =
      some (.arr (entries.map (fun p => BVal.doc [("index", .i32 p.1), ("_id", p.2)])))) :
    (mergeCounters r .update reply offset).nUpserted = r.nUpserted + entries.length ∧
    (mergeCounters r .update reply offset).nMatched
      = r.nMatched + max 0 (n - entries.length) ∧
    (mergeCounters r .update reply offset).upserted
      = r.upserted ++ entries.map (fun p => ((offset : Int) + p.1, p.2)) := by
  unfold mergeCounters
  rw [replyAffected_eq reply n hn]
  dsimp only
  rw [hup]
  dsimp only
  rw [filterMap_upsertEntry_map, foldlAppendUpsert_eq]
  split <;> exact ⟨rfl, rfl, rfl⟩

/-- The nModified accounting, independent of the upserted branch. -/
theorem mergeCounters_update_nModified (r : WriteResult) (reply : BsonDoc)
    (offset : Nat) (m : Int)
    (hm : findField reply "nModified" = some (.i32 m)) :
    (mergeCounters r .update reply offset).nModified = r.nModified + m := by
  unfold mergeCounters
  dsimp only
  rw [hm]
  show (match findField reply "upserted" with
        | some u =>
          let entries := (match u with | .arr a => a | _ => []).filterMap upsertEntry
          let r' := entries.foldl
            (fun acc (sv : Int × BVal) =>
              writeResultAppendUpsert acc ((offset : Int) + sv.1) sv.2) r
          { r' with nUpserted := r'.nUpserted + entries.length,
                    nMatched := r'.nMatched + max 0 (replyAffected reply - entries.length) }
        | none => { r with nMatched := r.nMatched + replyAffected reply } : WriteResult).nModified
          + m = r.nModified + m
  split
  · dsimp only
    rw [foldlAppendUpsert_eq]
  · rfl

/-- C7: merging an update reply at a given offset re-bases each upserted
entry index by the offset and appends (globalIndex, id) in order; upserted
grows by the entry count and matched by max 0 (n - count); without an
upserted array matched grows by n (whether or not nModified is present);
independently, modified grows by nModified exactly when the reply carries
it. -/
theorem c7_update_merge_accounting :
    (∀ (r : WriteResult) (reply : BsonDoc) (offset : Nat) (n : Int)
        (entries : List (Int × BVal)),
      findField reply "n" = some (.i32 n) →
      findField reply "upserted" =
        some (.arr (entries.map (fun p => BVal.doc [("index", .i32 p.1), ("_id", p.2)]))) →
      (writeResultMerge r .update reply offset).nUpserted = r.nUpserted + entries.length ∧
      (writeResultMerge r .update reply offset).nMatched
        = r.nMatched + max 0 (n - entries.length) ∧
      (writeResultMerge r .update reply offset).upserted
        = r.upserted ++ entries.map (fun p => ((offset : Int) + p.1, p.2))) ∧
    (∀ (r : WriteResult) (reply : BsonDoc) (offset : Nat) (n : Int),
      findField reply "n" = some (.i32 n) →
      findField reply "upserted" = none →
      (writeResultMerge r .update reply offset).nMatched = r.nMatched + n) ∧
    (∀ (r : WriteResult) (reply : BsonDoc) (offset : Nat) (m : Int),
      findField reply "nModified" = some (.i32 m) →
      (writeResultMerge r .update reply offset).nModified = r.nModified + m) ∧
    (∀ (r : WriteResult) (reply : BsonDoc) (offset : Nat),
      findField reply "nModified" = none →
      (writeResultMerge r .update reply offset).nModified = r.nModified) := by
  refine ⟨?_, ?_, ?_, ?_⟩
  · intro r reply offset n entries hn hup
    refine ⟨?_, ?_, ?_⟩ <;>
      simp only [writeResultMerge] <;>
        split <;>
          simp only [mergeWCE_nUpserted, mergeWCE_nMatched, mergeWCE_upserted,
            mergeWE_nUpserted, mergeWE_nMatched, mergeWE_upserted] <;>
          first
            | exact (mergeCounters_update_upserted_proj _ reply offset n entries hn hup).1
            | exact (mergeCounters_update_upserted_proj _ reply offset n entries hn hup).2.1
            | exact (mergeCounters_update_upserted_proj _ reply offset n entries hn hup).2.2
  · intro r reply offset n hn hup
    simp only [writeResultMerge]
    split <;>
      simp only [mergeWCE_nMatched, mergeWE_nMatched,
        mergeCounters_update_noUpserted _ reply offset n hn hup]
  · intro r reply offset m hm
    simp only [writeResultMerge]
    split <;>
      simp only [mergeWCE_nModified, mergeWE_nModified,
        mergeCounters_update_nModified _ reply offset m hm]
  · intro r reply offset hm
    simp only [writeResultMerge]
    split <;>
      simp only [mergeWCE_nModified, mergeWE_nModified,
        mergeCounters_update_noModified _ reply offset hm]

/-- C7 witness: the update reply {n 3, upserted [{index 0, _id X}]} merged
at offset 10 adds one upserted, two matched and the entry (10, X). -/
theorem c7_witness :
    (writeResultMerge writeResultInit .update
        [("n", BVal.i32 3),
         ("upserted", .arr [.doc [("index", .i32 0), ("_id", BVal.other 7)]])]
        10).nUpserted = 1 ∧
    (writeResultMerge writeResultInit .update
        [("n", BVal.i32 3),
         ("upserted", .arr [.doc [("index", .i32 0), ("_id", BVal.other 7)]])]
        10).nMatched = 2 ∧
    (writeResultMerge writeResultInit .update
        [("n", BVal.i32 3),
         ("upserted", .arr [.doc [("index", .i32 0), ("_id", BVal.other 7)]])]
        10).upserted = [(10, BVal.other 7)] := by
  have h := c7_update_merge_accounting.1 writeResultInit
    [("n", BVal.i32 3),
     ("upserted", .arr [.doc [("index", .i32 0), ("_id", BVal.other 7)]])]
    10 3 [((0 : Int), BVal.other 7)] (by rfl) (by rfl)
  simpa [writeResultInit] using h

/-- A non-empty string has non-zero length. -/
theorem length_ne_zero_of_ne_empty (s : String) (h : s ≠ "") : s.length ≠ 0 := by
  intro hl
  apply h
  cases s with
  | mk data =>
    cases data with
    | nil => rfl
    | cons a l => simp [String.length] at hl

/-- One step of the error fold over a standard {index, code, errmsg}
entry: the code is taken when the running code is still 0, and the message
is extended by the (possibly quoted and separated) errmsg. -/
theorem errFold_entry (nKeys : Nat) (code : Int) (msg : String) (i : Nat)
    (p : Int × Int × String) :
    errFold nKeys (code, msg, i) (errEntryOf p)
      = (if code = 0 then p.2.1 else code,
         msg ++ (if nKeys > 1 then
                   quoteStr p.2.2 ++ (if i < nKeys - 1 then ", " else "")
                 else p.2.2),
         i + 1) := by
  rcases p with ⟨a, c, m⟩
  by_cases hc : code = 0 <;> by_cases hk : nKeys > 1 <;>
    simp [errFold, errFoldDoc, errEntryOf, asInt32, asUtf8, hc, hk, String.append_assoc]

/-- The error fold over a non-empty tail of standard entries, counting up
to the array length: first non-zero code, quoted comma-separated join. -/
theorem errFold_list (nKeys : Nat) (es : List (Int × Int × String)) :
    ∀ (code : Int) (msg : String) (i : Nat), i + es.length = nKeys → 1 < nKeys → es ≠ [] →
      (es.map errEntryOf).foldl (errFold nKeys) (code, msg, i)
        = (firstNonzeroFrom code (es.map (fun p => p.2.1)),
           msg ++ specQuotedJoin (es.map (fun p => p.2.2)), nKeys) := by
  induction es with
  | nil => intro code msg i hi h1 hne; exact absurd rfl hne
  | cons p t ih =>
    intro code msg i hi h1 hne
    rw [List.map_cons, List.foldl_cons, errFold_entry]
    rcases t with _ | ⟨q, t'⟩
    · simp only [List.length_cons, List.length_nil] at hi
      rw [if_pos h1, if_neg (show ¬(i < nKeys - 1) by omega)]
      simp only [List.map_cons, List.map_nil, List.foldl_nil, firstNonzeroFrom,
        List.foldl_cons, specQuotedJoin, Prod.mk.injEq, String.append_empty,
        true_and, and_true, eq_self_iff_true]
      omega
    · have hiq : i < nKeys - 1 := by
        simp only [List.length_cons] at hi
        omega
      rw [if_pos h1, if_pos hiq,
          ih (if code = 0 then p.2.1 else code) (msg ++ (quoteStr p.2.2 ++ ", ")) (i + 1)
            (by simp only [List.length_cons] at hi ⊢; omega) h1 (by simp)]
      simp [firstNonzeroFrom, specQuotedJoin, String.append_assoc]

/-- _set_error_from_response over two or more standard entries whose first
non-zero code is non-zero: the synthesized error carries that code and the
Multiple-errors message. -/
theorem setErrorFromResponse_shape (es : List (Int × Int × String)) (domain : Nat)
    (errorType : String) (err : BsonError)
    (h2 : 2 ≤ es.length)
    (hfc : firstNonzeroCode (es.map (fun p => p.2.1)) ≠ 0) :
    setErrorFromResponse (es.map errEntryOf) domain errorType err
      = { domain := domain,
          code := toUInt32 (firstNonzeroCode (es.map (fun p => p.2.1))),
          message := ("Multiple " ++ errorType ++ " errors: ")
            ++ specQuotedJoin (es.map (fun p => p.2.2)) } := by
  simp only [setErrorFromResponse]
  have hlen : (es.map errEntryOf).length = es.length := List.length_map _ _
  have h1 : 1 < (es.map errEntryOf).length := by omega
  have hne : es ≠ [] := by
    intro h
    subst h
    simp at h2
  rw [if_pos h1,
      errFold_list (es.map errEntryOf).length es 0 ("Multiple " ++ errorType ++ " errors: ")
        0 (by omega) h1 hne]
  have hmsg : (("Multiple " ++ errorType ++ " errors: ")
      ++ specQuotedJoin (es.map (fun p => p.2.2))).length ≠ 0 := by
    simp only [String.length_append]
    have : ("Multiple " : String).length = 9 := rfl
    omega
  rw [if_pos ⟨by simpa [firstNonzeroCode] using hfc, hmsg⟩]
  rfl

/-- _set_error_from_response over exactly one standard entry with a
non-zero code and a non-empty message: the error carries the code and the
message verbatim. -/
theorem setErrorFromResponse_single (a c : Int) (m : String) (domain : Nat)
    (errorType : String) (err : BsonError)
    (hc : c ≠ 0) (hm : m ≠ "") :
    setErrorFromResponse [errEntryOf (a, c, m)] domain errorType err
      = { domain := domain, code := toUInt32 c, message := m } := by
  have hm' : m.length ≠ 0 := length_ne_zero_of_ne_empty m hm
  simp [setErrorFromResponse, errFold, errFoldDoc, errEntryOf, asInt32, asUtf8, hc, hm']

/-- C8: finalization reduces the accumulated writeErrors to one error
whose code is the first non-zero code in document order, with the single
message verbatim for one entry, and the Multiple-write-errors quoted
comma-separated join for several entries. -/
theorem c8_error_synthesis :
    (∀ (r : WriteResult) (apiV : Int) (ack : Bool) (domOv : Nat)
        (es : List (Int × Int × String)),
      r.writeErrors = es.map errEntryOf →
      2 ≤ es.length →
      toUInt32 (firstNonzeroCode (es.map (fun p => p.2.1))) ≠ 0 →
      (writeResultComplete r apiV ack domOv).err.code
          = toUInt32 (firstNonzeroCode (es.map (fun p => p.2.1))) ∧
      (writeResultComplete r apiV ack domOv).err.message
          = ("Multiple write errors: ") ++ specQuotedJoin (es.map (fun p => p.2.2))) ∧
    (∀ (r : WriteResult) (apiV : Int) (ack : Bool) (domOv : Nat) (a c : Int) (m : String),
      r.writeErrors = [errEntryOf (a, c, m)] →
      toUInt32 c ≠ 0 → m ≠ "" →
      (writeResultComplete r apiV ack domOv).err.code = toUInt32 c ∧
      (writeResultComplete r apiV ack domOv).err.message = m) := by
  constructor
  · intro r apiV ack domOv es hwe h2 htc
    have hfc : firstNonzeroCode (es.map (fun p => p.2.1)) ≠ 0 := by
      intro h
      rw [h] at htc
      exact htc rfl
    simp only [writeResultComplete]
    rw [hwe, setErrorFromResponse_shape es _ "write" r.error h2 hfc]
    rw [if_neg htc]
    exact ⟨rfl, rfl⟩
  · intro r apiV ack domOv a c m hwe htc hm
    have hc : c ≠ 0 := by
      intro h
      rw [h] at htc
      exact htc rfl
    simp only [writeResultComplete]
    rw [hwe, setErrorFromResponse_single a c m _ "write" r.error hc hm]
    rw [if_neg htc]
    exact ⟨rfl, rfl⟩

/-- C8 witness: two entries with codes 11000 and 10334 and messages
dup key and bad value yield code 11000 and the Multiple-write-errors
message with both messages quoted, in order. -/
theorem c8_witness :
    (writeResultComplete
        { writeResultInit with
          failed := true
          writeErrors := [errEntryOf (0, 11000, "dup key"), errEntryOf (1, 10334, "bad value")] }
        2 true 0).err.code = 11000 ∧
    (writeResultComplete
        { writeResultInit with
          failed := true
          writeErrors := [errEntryOf (0, 11000, "dup key"), errEntryOf (1, 10334, "bad value")] }
        2 true 0).err.message = "Multiple write errors: \"dup key\", \"bad value\"" := by
  have h := c8_error_synthesis.1
    { writeResultInit with
      failed := true
      writeErrors := [errEntryOf (0, 11000, "dup key"), errEntryOf (1, 10334, "bad value")] }
    2 true 0 [(0, 11000, "dup key"), (1, 10334, "bad value")] rfl (by decide) (by decide)
  obtain ⟨h1, h2⟩ := h
  constructor
  · rw [h1]
    rfl
  · rw [h2]
    rfl

/-- The error fold never leaves code 0 when every entry carries code 0. -/
theorem errFold_all_zero (nKeys : Nat) (es : List (Int × String)) :
    ∀ (msg : String) (i : Nat),
      ((es.map (fun p => errEntryOf (p.1, 0, p.2))).foldl (errFold nKeys) (0, msg, i)).1
        = 0 := by
  induction es with
  | nil => intro msg i; rfl
  | cons p t ih =>
    intro msg i
    rw [List.map_cons, List.foldl_cons, errFold_entry]
    simpa [ite_self] using ih _ _

/-- _set_error_from_response leaves the error untouched when every entry
carries code 0. -/
theorem setErrorFromResponse_all_zero (es : List (Int × String)) (domain : Nat)
    (errorType : String) (err : BsonError) :
    setErrorFromResponse (es.map (fun p => errEntryOf (p.1, 0, p.2))) domain errorType err
      = err := by
  simp only [setErrorFromResponse]
  rw [if_neg (fun hcond => hcond.1 (errFold_all_zero _ es _ _))]

/-- C10: when every accumulated write error and write concern error has
code 0, finalization leaves result.error zeroed even though failed is
true, so the completion returns false while the out-parameter error
carries domain 0, code 0 and an empty message. -/
theorem c10_zero_code_errors_unset (r : WriteResult) (apiV : Int) (ack : Bool)
    (domOv : Nat) (es : List (Int × String)) (ws : List (Int × String))
    (hfail : r.failed = true)
    (herr : r.error = zeroError)
    (hwe : r.writeErrors = es.map (fun p => errEntryOf (p.1, 0, p.2)))
    (hwce : r.writeConcernErrors = ws.map (fun p => errEntryOf (p.1, 0, p.2))) :
    (writeResultComplete r apiV ack domOv).ok = false ∧
    (writeResultComplete r apiV ack domOv).err = zeroError ∧
    (writeResultComplete r apiV ack domOv).result.error = zeroError := by
  simp only [writeResultComplete]
  rw [hwe, hwce, setErrorFromResponse_all_zero, herr,
      if_pos (show zeroError.code = 0 from rfl), setErrorFromResponse_all_zero]
  refine ⟨?_, rfl, rfl⟩
  simp [hfail]

/-- C10 witness: one write error entry with code 0, no write concern
errors, failed set: completion returns false with a zeroed out-error. -/
theorem c10_witness :
    (writeResultComplete
        { writeResultInit with
          failed := true
          writeErrors := [errEntryOf (0, 0, "x")] } 2 true 0).ok = false ∧
    (writeResultComplete
        { writeResultInit with
          failed := true
          writeErrors := [errEntryOf (0, 0, "x")] } 2 true 0).err = zeroError ∧
    (writeResultComplete
        { writeResultInit with
          failed := true
          writeErrors := [errEntryOf (0, 0, "x")] } 2 true 0).result.error = zeroError := by
  exact c10_zero_code_errors_unset
    { writeResultInit with
      failed := true
      writeErrors := [errEntryOf (0, 0, "x")] } 2 true 0 [(0, "x")] []
    rfl rfl rfl rfl

/-- C9: each configuration, protocol, or empty-operation error is detected
before any batch is sent; execution aborts at once with result.error set
and no partial result: both transports untouched, all counters still 0,
no reply merged. -/
theorem c9_preflight_errors_abort (cmd : WriteCommandModel) (ec : ExecCtx)
    (offset fuel : Nat)
    (h : ec.wcValid = false ∨
         (cmd.flags.hasCollation = true ∧ ec.wcAcknowledged = false) ∨
         (cmd.flags.hasCollation = true ∧ ec.maxWireVersion < wireVersionCollation) ∨
         (cmd.flags.bypassDocumentValidation ≠ BypassDocumentValidation.vdefault ∧
          ec.wcAcknowledged = false) ∨
         cmd.payload.len = 0) :
    ∃ out, writeCommandExecute cmd ec offset writeResultInit fuel = some out ∧
      out.sent = [] ∧ out.rounds = [] ∧ out.usedLegacy = false ∧
      out.result.error.code ≠ 0 ∧
      out.result.nInserted = 0 ∧ out.result.nMatched = 0 ∧ out.result.nModified = 0 ∧
      out.result.nRemoved = 0 ∧ out.result.nUpserted = 0 ∧
      out.result.upserted = [] ∧ out.result.writeErrors = [] ∧
      out.result.writeConcernErrors = [] := by
  simp only [writeCommandExecute]
  split
  · exact ⟨_, rfl, rfl, rfl, rfl, by decide, rfl, rfl, rfl, rfl, rfl, rfl, rfl, rfl⟩
  · split
    · exact ⟨_, rfl, rfl, rfl, rfl, by decide, rfl, rfl, rfl, rfl, rfl, rfl, rfl, rfl⟩
    · split
      · exact ⟨_, rfl, rfl, rfl, rfl, by decide, rfl, rfl, rfl, rfl, rfl, rfl, rfl, rfl⟩
      · split
        · exact ⟨_, rfl, rfl, rfl, rfl, by decide, rfl, rfl, rfl, rfl, rfl, rfl, rfl, rfl⟩
        · split
          · refine ⟨_, rfl, rfl, rfl, rfl, ?_, rfl, rfl, rfl, rfl, rfl, rfl, rfl, rfl⟩
            show emptyErrorCode cmd.cmdType ≠ 0
            cases cmd.cmdType <;> decide
          · split
            · rcases h with h | h | h | h | h <;> simp_all
            · split
              · rcases h with h | h | h | h | h <;> simp_all
              · rcases h with h | h | h | h | h <;> simp_all

/-- C9 witness: executing an insert command with an empty payload aborts
with the empty-operation error before any batch, leaving a zeroed result. -/
theorem c9_witness :
    ∃ out, writeCommandExecute
        ⟨.insert, ⟨true, .vdefault, false⟩, ⟨fun _ => 0, 0⟩⟩
        ⟨true, true, 6, 1000, 10000, 10, 10, 30, fun _ => (true, []),
         fun _ => ⟨true, true, []⟩⟩
        0 writeResultInit 5 = some out ∧
      out.sent = [] ∧ out.rounds = [] ∧ out.usedLegacy = false ∧
      out.result.error.code ≠ 0 ∧
      out.result.nInserted = 0 ∧ out.result.nMatched = 0 ∧ out.result.nModified = 0 ∧
      out.result.nRemoved = 0 ∧ out.result.nUpserted = 0 ∧
      out.result.upserted = [] ∧ out.result.writeErrors = [] ∧
      out.result.writeConcernErrors = [] :=
  c9_preflight_errors_abort _ _ 0 5 (Or.inr (Or.inr (Or.inr (Or.inr rfl))))

/-- toInt32 is the identity below 2^31. -/
theorem toInt32_small (u : Nat) (h : u < 2147483648) : toInt32 u = u := by
  unfold toInt32
  rw [Nat.mod_eq_of_lt (by omega)]
  rw [if_pos h]

/-- The uniform-documents setting of the batch-splitting claim: a payload
of n records of d bytes each (well-formed length prefixes), limits in
int32 range, documents under the skip threshold, and a message size
admitting exactly k documents per batch with k under the batch count. -/
structure C6Setup (ctx : OpmsgCtx) (n d k : Nat) : Prop where
  hplen : ctx.payload.len = n * d
  hwf : ∀ j, j < n → readLE4 ctx.payload.data (j * d) = d
  hd : 0 < d
  hd31 : d < 2147483648
  hskip : d ≤ ctx.maxBsonObjSize + 16384
  hk : 1 ≤ k
  hfit : opmsgHeader ctx + k * d ≤ ctx.maxMsgSize
  hover : ctx.maxMsgSize < opmsgHeader ctx + (k + 1) * d
  hbatch : k < ctx.maxDocumentCount

/-- A mid-batch accept: the record fits, the batch is not filled and the
record is not the last, so the step only grows the pending batch. -/
theorem c6_step_accept_mid (ctx : OpmsgCtx) (n d k : Nat) (hs : C6Setup ctx n d k)
    (c j : Nat) (s : OpmsgSt)
    (hT : s.payloadTotalOffset = c * d) (hB : s.payloadBatchSize = j * d)
    (hdc : s.documentCount = j)
    (hjk : j + 1 ≤ k) (hcj : c + j + 1 < n) :
    opmsgStep ctx s
      = { s with payloadBatchSize := s.payloadBatchSize + d
                 documentCount := s.documentCount + 1 } := by
  obtain ⟨hplen, hwf, hd, hd31, hskip, hk, hfit, hover, hbatch⟩ := hs
  have hread : readLE4 ctx.payload.data (s.payloadBatchSize + s.payloadTotalOffset) = d := by
    rw [hB, hT, show j * d + c * d = (j + c) * d from by ring]
    exact hwf (j + c) (by omega)
  simp only [opmsgStep]
  rw [hread, Nat.mod_eq_of_lt (show d < 4294967296 by omega), toInt32_small d hd31]
  rw [if_neg (show ¬((d : Int) > (ctx.maxBsonObjSize : Int) + 16384) by omega)]
  rw [if_pos (show s.payloadBatchSize + opmsgHeader ctx + d ≤ ctx.maxMsgSize by
        rw [hB]
        have h3 : (j + 1) * d ≤ k * d := Nat.mul_le_mul_right d hjk
        have h4 : (j + 1) * d = j * d + d := by ring
        omega)]
  dsimp only
  rw [if_neg (show ¬(s.documentCount + 1 = ctx.maxDocumentCount ∨
        s.payloadBatchSize + d + s.payloadTotalOffset = ctx.payload.len) by
      rw [hB, hT, hdc, hplen]
      rintro (h | h)
      · omega
      · have h1 : (j + c + 1) * d = n * d := by rw [← h]; ring
        have h2 := Nat.eq_of_mul_eq_mul_right hd h1
        omega)]

/-- Accepting the last record of the payload: the step accepts it and
ships the batch in the same iteration. -/
theorem c6_step_accept_last (ctx : OpmsgCtx) (n d k : Nat) (hs : C6Setup ctx n d k)
    (c j : Nat) (s : OpmsgSt)
    (hT : s.payloadTotalOffset = c * d) (hB : s.payloadBatchSize = j * d)
    (hjk : j + 1 ≤ k) (hcj : c + j + 1 = n) :
    opmsgStep ctx s
      = opmsgShip ctx
          { s with payloadBatchSize := s.payloadBatchSize + d
                   documentCount := s.documentCount + 1 } := by
  obtain ⟨hplen, hwf, hd, hd31, hskip, hk, hfit, hover, hbatch⟩ := hs
  have hread : readLE4 ctx.payload.data (s.payloadBatchSize + s.payloadTotalOffset) = d := by
    rw [hB, hT, show j * d + c * d = (j + c) * d from by ring]
    exact hwf (j + c) (by omega)
  simp only [opmsgStep]
  rw [hread, Nat.mod_eq_of_lt (show d < 4294967296 by omega), toInt32_small d hd31]
  rw [if_neg (show ¬((d : Int) > (ctx.maxBsonObjSize : Int) + 16384) by omega)]
  rw [if_pos (show s.payloadBatchSize + opmsgHeader ctx + d ≤ ctx.maxMsgSize by
        rw [hB]
        have h3 : (j + 1) * d ≤ k * d := Nat.mul_le_mul_right d hjk
        have h4 : (j + 1) * d = j * d + d := by ring
        omega)]
  dsimp only
  rw [if_pos (show s.documentCount + 1 = ctx.maxDocumentCount ∨
        s.payloadBatchSize + d + s.payloadTotalOffset = ctx.payload.len from
      Or.inr (by
        rw [hB, hT, hplen, show j * d + d + c * d = (c + j + 1) * d from by ring, hcj]))]

/-- A full batch meeting a further record: the record does not fit, so the
step ships the pending batch without it. -/
theorem c6_step_overflow (ctx : OpmsgCtx) (n d k : Nat) (hs : C6Setup ctx n d k)
    (c : Nat) (s : OpmsgSt)
    (hT : s.payloadTotalOffset = c * d) (hB : s.payloadBatchSize = k * d)
    (hck : c + k < n) :
    opmsgStep ctx s = opmsgShip ctx s := by
  obtain ⟨hplen, hwf, hd, hd31, hskip, hk, hfit, hover, hbatch⟩ := hs
  have hread : readLE4 ctx.payload.data (s.payloadBatchSize + s.payloadTotalOffset) = d := by
    rw [hB, hT, show k * d + c * d = (k + c) * d from by ring]
    exact hwf (k + c) (by omega)
  simp only [opmsgStep]
  rw [hread, Nat.mod_eq_of_lt (show d < 4294967296 by omega), toInt32_small d hd31]
  rw [if_neg (show ¬((d : Int) > (ctx.maxBsonObjSize : Int) + 16384) by omega)]
  rw [if_neg (show ¬(s.payloadBatchSize + opmsgHeader ctx + d ≤ ctx.maxMsgSize) by
        rw [hB]
        have h4 : (k + 1) * d = k * d + d := by ring
        omega)]

/-- One unfolding of the fuelled opmsg loop. -/
theorem opmsgLoop_succ (ctx : OpmsgCtx) (f : Nat) (s : OpmsgSt) :
    opmsgLoop ctx (f + 1) s
      = (if (opmsgStep ctx s).payloadTotalOffset < ctx.payload.len
         then opmsgLoop ctx f (opmsgStep ctx s)
         else some (opmsgStep ctx s)) := rfl

/-- Strict growth of the payload position product. -/
theorem c6_mul_lt (c n d : Nat) (hd : 0 < d) (hcn : c < n) : c * d < n * d := by
  have h2 : (c + 1) * d ≤ n * d := Nat.mul_le_mul_right d (by omega)
  have h3 : (c + 1) * d = c * d + d := by ring
  omega

/-- Running t mid-batch accepts in a row from a batch of j documents. -/
theorem c6_accum (ctx : OpmsgCtx) (n d k : Nat) (hs : C6Setup ctx n d k) (c : Nat) :
    ∀ (t j : Nat) (s : OpmsgSt) (f : Nat),
      s.payloadTotalOffset = c * d → s.payloadBatchSize = j * d →
      s.documentCount = j → j + t ≤ k → c + j + t < n →
      opmsgLoop ctx (f + t) s
        = opmsgLoop ctx f
            { s with payloadBatchSize := (j + t) * d
                     documentCount := j + t } := by
  intro t
  induction t with
  | zero =>
    intro j s f hT hB hdc hjk hcj
    simp only [Nat.add_zero]
    rw [← hB, ← hdc]
  | succ t ih =>
    intro j s f hT hB hdc hjk hcj
    have hstep := c6_step_accept_mid ctx n d k hs c j s hT hB hdc (by omega) (by omega)
    have hcond : (opmsgStep ctx s).payloadTotalOffset < ctx.payload.len := by
      rw [hstep]
      show s.payloadTotalOffset < ctx.payload.len
      rw [hT, hs.hplen]
      exact c6_mul_lt c n d hs.hd (by omega)
    rw [show f + (t + 1) = (f + t) + 1 from rfl, opmsgLoop_succ, if_pos hcond]
    rw [ih (j + 1) (opmsgStep ctx s) f
          (by rw [hstep]; exact hT)
          (by rw [hstep]; show s.payloadBatchSize + d = (j + 1) * d; rw [hB]; ring)
          (by rw [hstep]; show s.documentCount + 1 = j + 1; rw [hdc])
          (by omega) (by omega)]
    have harith : j + 1 + t = j + (t + 1) := by omega
    rw [harith, hstep]

/-- The deterministic fields of the ship block: the total offset advances
by the batch size, batch size and document count are zeroed, and the trace
records the shipped window. -/
theorem opmsgShip_fields (ctx : OpmsgCtx) (s : OpmsgSt) :
    (opmsgShip ctx s).payloadTotalOffset = s.payloadTotalOffset + s.payloadBatchSize ∧
    (opmsgShip ctx s).payloadBatchSize = 0 ∧
    (opmsgShip ctx s).documentCount = 0 ∧
    (opmsgShip ctx s).sent
      = s.sent ++ [⟨s.payloadTotalOffset, s.payloadBatchSize, s.documentCount,
                    s.result.mustStop⟩] :=
  ⟨rfl, rfl, rfl, rfl⟩

/-- The batch split of the opmsg loop from a batch boundary: with m
records remaining out of n and k records fitting per message, the loop
ships the remaining records as ceil(m/k) batches of k records each except
possibly the last, at contiguous offsets. -/
theorem c6_batch (ctx : OpmsgCtx) (n d k : Nat) (hs : C6Setup ctx n d k) :
    ∀ (m c : Nat) (s : OpmsgSt) (f : Nat),
      c + m = n → 1 ≤ m → 2 * m ≤ f →
      s.payloadTotalOffset = c * d → s.payloadBatchSize = 0 → s.documentCount = 0 →
      ∃ fin, opmsgLoop ctx f s = some fin ∧
        fin.sent.map (fun b => (b.offset, b.size, b.docs))
          = s.sent.map (fun b => (b.offset, b.size, b.docs))
            ++ (List.range ((m + k - 1) / k)).map
                (fun i => ((c + i * k) * d, min k (m - i * k) * d, min k (m - i * k))) := by
  intro m
  induction m using Nat.strong_induction_on with
  | _ m ih =>
    intro c s f hcm hm hf hT hB hdc
    have hk := hs.hk
    by_cases hmk : m ≤ k
    · obtain ⟨f', rfl⟩ : ∃ f', f = f' + (m - 1) := ⟨f - (m - 1), by omega⟩
      rw [c6_accum ctx n d k hs c (m - 1) 0 s f' hT (by rw [hB]; ring) hdc
            (by omega) (by omega)]
      simp only [Nat.zero_add]
      obtain ⟨f'', rfl⟩ : ∃ f'', f' = f'' + 1 := ⟨f' - 1, by omega⟩
      have hstep := c6_step_accept_last ctx n d k hs c (m - 1)
        { s with payloadBatchSize := (m - 1) * d, documentCount := m - 1 }
        hT rfl (by omega) (by omega)
      have hTfin : (opmsgStep ctx
          { s with payloadBatchSize := (m - 1) * d, documentCount := m - 1
          }).payloadTotalOffset = n * d := by
        rw [hstep, (opmsgShip_fields ctx _).1]
        dsimp only
        rw [hT, show c * d + ((m - 1) * d + d) = (c + (m - 1) + 1) * d from by ring,
            show c + (m - 1) + 1 = n from by omega]
      rw [opmsgLoop_succ, if_neg (by rw [hTfin, hs.hplen]; omega)]
      refine ⟨_, rfl, ?_⟩
      rw [hstep, (opmsgShip_fields ctx _).2.2.2]
      dsimp only
      rw [List.map_append, List.map_singleton, hT]
      have hdiv : (m + k - 1) / k = 1 := Nat.div_eq_of_lt_le (by omega) (by omega)
      rw [hdiv, show List.range 1 = [0] from rfl, List.map_singleton]
      rw [show (m - 1) * d + d = m * d from by
            rw [show (m - 1) * d + d = ((m - 1) + 1) * d from by ring,
                show (m - 1) + 1 = m from by omega],
          show (m - 1) + 1 = m from by omega,
          Nat.zero_mul, Nat.add_zero, Nat.sub_zero, Nat.min_eq_right hmk]
    · obtain ⟨f', rfl⟩ : ∃ f', f = f' + k := ⟨f - k, by omega⟩
      rw [c6_accum ctx n d k hs c k 0 s f' hT (by rw [hB]; ring) hdc
            (by omega) (by omega)]
      simp only [Nat.zero_add]
      obtain ⟨f'', rfl⟩ : ∃ f'', f' = f'' + 1 := ⟨f' - 1, by omega⟩
      have hstep := c6_step_overflow ctx n d k hs c
        { s with payloadBatchSize := k * d, documentCount := k } hT rfl (by omega)
      have hT2 : (opmsgStep ctx
          { s with payloadBatchSize := k * d, documentCount := k
          }).payloadTotalOffset = (c + k) * d := by
        rw [hstep, (opmsgShip_fields ctx _).1]
        dsimp only
        rw [hT]
        ring
      rw [opmsgLoop_succ, if_pos (by
        rw [hT2, hs.hplen]
        exact c6_mul_lt (c + k) n d hs.hd (by omega))]
      obtain ⟨fin, hfin, hmap⟩ := ih (m - k) (by omega) (c + k) _ f''
        (by omega) (by omega) (by omega)
        hT2 (by rw [hstep]; exact (opmsgShip_fields ctx _).2.1)
        (by rw [hstep]; exact (opmsgShip_fields ctx _).2.2.1)
      refine ⟨fin, hfin, ?_⟩
      rw [hmap, hstep, (opmsgShip_fields ctx _).2.2.2]
      dsimp only
      rw [List.map_append, List.map_singleton, hT, List.append_assoc]
      congr 1
      have hdiv : (m + k - 1) / k = ((m - k) + k - 1) / k + 1 := by
        rw [show (m - k) + k - 1 = m - 1 from by omega,
            show m + k - 1 = (m - 1) + k from by omega,
            Nat.add_div_right _ (show 0 < k by omega)]
      rw [hdiv, List.range_succ_eq_map, List.map_cons, List.map_map,
          List.singleton_append]
      congr 1
      · rw [Nat.zero_mul, Nat.add_zero, Nat.sub_zero, Nat.min_eq_left (by omega)]
      · apply List.map_congr_left
        intro i hi
        show (((c + k) + i * k) * d, min k ((m - k) - i * k) * d, min k ((m - k) - i * k))
          = ((c + (i + 1) * k) * d, min k (m - (i + 1) * k) * d, min k (m - (i + 1) * k))
        rw [show c + (i + 1) * k = c + k + i * k from by ring,
            show (i + 1) * k = k + i * k from by ring,
            ← Nat.sub_sub]

/-- C6: for n same-size documents of encoded length d, per-message
overhead 26 + assembled-command-length + field-identifier-length + 1, and
maxMessageSize admitting exactly k documents per batch (with k below
maxBatchCount), the modern batcher ships exactly ceil(n/k) = (n+k-1)/k
batches at contiguous offsets, each of k documents except possibly the
last; a record that would overflow closes the pending batch without it
and starts the next one (built into the step analysis).  The last four
hypotheses confine the statement to inputs where every uint32 quantity of
the C loop (payload offsets and sizes, the accumulated fit sum, the
int-typed skip threshold) stays in range, so the unbounded-Nat model is
exact: the payload fits uint32, maxMessageSize is a positive int32, the
largest fit-test sum header + (k+1)*d cannot wrap, and the skip threshold
maxDocSize + 16384 cannot overflow a signed 32-bit int. -/
theorem c6_batch_count_ceil (dat : Nat → Nat) (n d k : Nat) (ty : WriteCmdType)
    (maxBson maxMsg maxDocCount cmdLen : Nat)
    (transport : Nat → Bool × BsonDoc) (r : WriteResult) (off fuel : Nat)
    (hwf : ∀ j, j < n → readLE4 dat (j * d) = d)
    (hd : 0 < d) (hd31 : d < 2147483648)
    (hskip : d ≤ maxBson + 16384)
    (hk : 1 ≤ k)
    (hfit : 26 + cmdLen + gCommandFieldLens ty + 1 + k * d ≤ maxMsg)
    (hover : maxMsg < 26 + cmdLen + gCommandFieldLens ty + 1 + (k + 1) * d)
    (hbatch : k < maxDocCount)
    (hn : 1 ≤ n)
    (hfuel : 2 * n ≤ fuel)
    (_hlen32 : n * d < 4294967296)
    (_hmsg31 : maxMsg < 2147483648)
    (_hsum32 : 26 + cmdLen + gCommandFieldLens ty + 1 + (k + 1) * d < 4294967296)
    (_hbson31 : maxBson + 16384 < 2147483648) :
    (opmsgRun ⟨⟨dat, n * d⟩, ty, maxBson, maxMsg, maxDocCount, cmdLen, transport⟩
        off r fuel).map (fun st => st.sent.map (fun b => (b.offset, b.size, b.docs)))
      = some ((List.range ((n + k - 1) / k)).map
          (fun i => (i * k * d, min k (n - i * k) * d, min k (n - i * k)))) := by
  have hs : C6Setup ⟨⟨dat, n * d⟩, ty, maxBson, maxMsg, maxDocCount, cmdLen, transport⟩
      n d k := by
    refine ⟨rfl, hwf, hd, hd31, hskip, hk, ?_, ?_, hbatch⟩
    · show 26 + cmdLen + gCommandFieldLens ty + 1 + k * d ≤ maxMsg
      exact hfit
    · show maxMsg < 26 + cmdLen + gCommandFieldLens ty + 1 + (k + 1) * d
      exact hover
  obtain ⟨fin, hfin, hmap⟩ := c6_batch _ n d k hs n 0 ⟨0, 0, 0, off, r, [], []⟩ fuel
    (by omega) hn hfuel (by simp) rfl rfl
  unfold opmsgRun
  rw [hfin]
  simp only [Option.map_some']
  simp only [List.map_nil, List.nil_append, Nat.zero_add] at hmap
  rw [hmap]

/-- C6 witness: five 8-byte documents with header 46 and maxMessageSize 65
(k = 2) ship as ceil(5/2) = 3 batches of 2, 2 and 1 documents at offsets
0, 16 and 32. -/
theorem c6_witness :
    (opmsgRun ⟨⟨fun i => if i % 8 = 0 then 8 else 0, 5 * 8⟩, .insert, 100, 65, 10, 10,
        fun _ => (true, [])⟩ 0 writeResultInit 10).map
        (fun st => st.sent.map (fun b => (b.offset, b.size, b.docs)))
      = some [(0, 16, 2), (16, 16, 2), (32, 8, 1)] := by
  have h := c6_batch_count_ceil (fun i => if i % 8 = 0 then 8 else 0) 5 8 2 .insert
    100 65 10 10 (fun _ => (true, [])) writeResultInit 0 10
    (by decide) (by decide) (by decide) (by decide) (by decide)
    (by decide) (by decide) (by decide) (by decide) (by decide)
    (by decide) (by decide) (by decide) (by decide)
  exact h.trans (by decide)
